import Mathlib

/-!
Verification of the git-assistant state-scraping core.

This file gives a shallow embedding, in Lean, of the parsing and
aggregation layer of the git-assistant repository
(core/state_scraper.py, core/mcp_wrapper.py, models/git_context.py),
and proves or refutes the frozen behavioural claims about it.

Python strings are modelled as lists of characters (PyStr); Python
subprocess results are modelled by an explicit outcome type; fallible
constructions return Except.  Each definition is translated from the
source file it names.
-/

/-- Python strings are modelled as lists of characters. -/
abbrev PyStr := List Char

/-- Default whitespace characters of Python str.strip and str.split
(ASCII subset). -/
def isPySpace (c : Char) : Bool :=
  c = ' ' || c = '\t' || c = '\n' || c = '\r' || c = '\x0b' || c = '\x0c'

/-- Python str.strip with no argument: remove leading and trailing
whitespace. -/
def pyStrip (s : PyStr) : PyStr :=
  ((s.dropWhile isPySpace).reverse.dropWhile isPySpace).reverse

/-- Python str.split(sep) for a one-character separator: split at every
occurrence, keeping empty pieces (so the empty string yields one empty
piece). -/
def pySplitChar (sep : Char) : PyStr → List PyStr
  | [] => [[]]
  | c :: rest =>
    let r := pySplitChar sep rest
    if c = sep then [] :: r
    else
      match r with
      | [] => [[c]]
      | h :: t => (c :: h) :: t

/-- Helper for pySplitWs: accumulates the current word (reversed). -/
def pySplitWsAux : PyStr → PyStr → List PyStr
  | [], cur => if cur = [] then [] else [cur.reverse]
  | c :: rest, cur =>
    if isPySpace c then
      if cur = [] then pySplitWsAux rest []
      else cur.reverse :: pySplitWsAux rest []
    else pySplitWsAux rest (c :: cur)

/-- Python str.split with no argument: split on runs of whitespace,
dropping empty pieces. -/
def pySplitWs (s : PyStr) : List PyStr :=
  pySplitWsAux s []

/-- Python " ".join applied to a list of strings. -/
def joinWithSpace (parts : List PyStr) : PyStr :=
  List.intercalate [' '] parts

/-- Prefix of s strictly before the first occurrence of the pattern pat,
or none when pat does not occur in s (Python: the test pat in s, and
s.split(pat)[0]). -/
def beforeFirst (pat : PyStr) : PyStr → Option PyStr
  | [] => none
  | c :: rest =>
    if pat.isPrefixOf (c :: rest) then some []
    else
      match beforeFirst pat rest with
      | some p => some (c :: p)
      | none => none

/-- models/git_context.py FileStatus: the status record of a single file. -/
structure FileStatus where
  file_path : PyStr
  status : PyStr
  is_staged : Bool
  is_tracked : Bool
  change_type : Option PyStr
  details : Option PyStr
  has_conflicts : Bool
deriving DecidableEq, Repr

/-- state_scraper.py StateScraper._get_status_description: one-character
git status code to category word. -/
def get_status_description (status_code : Char) : PyStr :=
  if status_code = 'M' then ("modified".data)
  else if status_code = 'A' then ("added".data)
  else if status_code = 'D' then ("deleted".data)
  else if status_code = 'R' then ("renamed".data)
  else if status_code = 'C' then ("copied".data)
  else if status_code = 'U' then ("unmerged".data)
  else if status_code = '?' then ("untracked".data)
  else ("unknown".data)

/-- state_scraper.py StateScraper._get_rename_copy_details: for a path
containing the arrow separator, the detail text naming the old path. -/
def get_rename_copy_details (file_path : PyStr) : Option PyStr :=
  match beforeFirst (" -> ".data) file_path with
  | some pre => some (("renamed from ".data) ++ pre)
  | none => none

/-- state_scraper.py StateScraper._create_file_status: classify one
status line from its two status-code characters. -/
def create_file_status (file_path : PyStr) (index_status working_status : Char) : FileStatus :=
  let quad :=
    if index_status = ' ' ∧ working_status = '?' then
      (("untracked".data), false, false, (none : Option PyStr))
    else if index_status = ' ' ∧ working_status ≠ ' ' then
      (get_status_description working_status, true, false, some ("unstaged".data))
    else if index_status ≠ ' ' ∧ working_status = ' ' then
      (get_status_description index_status, true, true, some ("staged".data))
    else
      (get_status_description working_status, true, true, some ("both".data))
  match quad with
  | (status, is_tracked, is_staged, change_type) =>
    { file_path := file_path
      status := status
      is_staged := is_staged
      is_tracked := is_tracked
      change_type := change_type
      details :=
        if index_status = 'R' ∨ index_status = 'C' ∨ working_status = 'R' ∨ working_status = 'C' then
          get_rename_copy_details file_path
        else none
      has_conflicts := if index_status = 'U' ∨ working_status = 'U' then true else false }

/-- The guards of the status-parsing loop in
StateScraper._parse_git_status: a blank line is skipped, the two status
characters are positions 0 and 1, the path starts at position 3, and a
line with an empty path is skipped. -/
def statusLineEntry (line : PyStr) : Option (Char × Char × PyStr) :=
  if pyStrip line = [] then none
  else
    match line with
    | x :: y :: _ :: rest => if rest = [] then none else some (x, y, rest)
    | _ => none

/-- One iteration of the loop in StateScraper._parse_git_status: append
the parsed entry to the working-tree list when the worktree character is
not a space, and to the staging-area list when the index character is
not a space. -/
def processStatusLine (acc : List FileStatus × List FileStatus) (line : PyStr) :
    List FileStatus × List FileStatus :=
  match statusLineEntry line with
  | none => acc
  | some (x, y, p) =>
    let fs := create_file_status p x y
    (if y ≠ ' ' then acc.1 ++ [fs] else acc.1,
     if x ≠ ' ' then acc.2 ++ [fs] else acc.2)

/-- state_scraper.py StateScraper._parse_git_status: split the porcelain
status output into lines and fold the per-line processing, producing the
pair (working-tree list, staging-area list). -/
def parse_git_status (status_output : PyStr) : List FileStatus × List FileStatus :=
  (pySplitChar '\n' status_output).foldl processStatusLine ([], [])

/-- The entry a status line contributes to the working-tree list: the
parsed file status when the worktree character is not a space, nothing
otherwise. -/
def workingLineEntry (line : PyStr) : Option FileStatus :=
  match statusLineEntry line with
  | some (x, y, p) => if y ≠ ' ' then some (create_file_status p x y) else none
  | none => none

/-- The entry a status line contributes to the staging-area list: the
parsed file status when the index character is not a space, nothing
otherwise. -/
def stagingLineEntry (line : PyStr) : Option FileStatus :=
  match statusLineEntry line with
  | some (x, y, p) => if x ≠ ' ' then some (create_file_status p x y) else none
  | none => none

/-- state_scraper.py GitCommandError: the typed failure raised when a
git invocation fails. -/
structure GitCommandError where
  command : PyStr
  error_output : PyStr
  return_code : Int
deriving DecidableEq, Repr

/-- The possible outcomes of the subprocess.run call inside
StateScraper._run_git_command: normal completion with exit code and
captured streams, a TimeoutExpired exception, or another
SubprocessError. -/
inductive SubprocessOutcome where
  | completed (returncode : Int) (stdout stderr : PyStr)
  | timedOut
  | subprocessFailure (message : PyStr)
deriving DecidableEq, Repr

/-- state_scraper.py StateScraper._run_git_command: on exit code 0
return the stripped stdout; on a non-zero exit code fail with the
joined command string, the stripped stderr (or the fixed text when that
is empty), and the exit code; on timeout fail with exit code -1 and the
fixed timeout message. -/
def run_git_command (git_path : PyStr) (command : List PyStr)
    (outcome : SubprocessOutcome) : Except GitCommandError PyStr :=
  let full_command := git_path :: command
  match outcome with
  | .completed returncode stdout stderr =>
    if returncode ≠ 0 then
      .error { command := joinWithSpace full_command
               error_output :=
                 if pyStrip stderr = [] then ("Unknown error".data) else pyStrip stderr
               return_code := returncode }
    else .ok (pyStrip stdout)
  | .timedOut =>
    .error { command := joinWithSpace full_command
             error_output := ("Command timed out".data)
             return_code := -1 }
  | .subprocessFailure message =>
    .error { command := joinWithSpace full_command
             error_output := message
             return_code := -1 }

/-- state_scraper.py StateScraper.get_quick_status: run git status in
short form; on any failure return the fixed degradation text, on blank
output report a clean tree, otherwise report the number of non-blank
lines. -/
def get_quick_status (git_path : PyStr) (outcome : SubprocessOutcome) : PyStr :=
  match run_git_command git_path [("status".data), ("--short".data)] outcome with
  | .error _ => ("Unable to determine status".data)
  | .ok status_output =>
    if pyStrip status_output = [] then ("Working directory clean".data)
    else
      let lines := (pySplitChar '\n' status_output).filter (fun line => pyStrip line ≠ [])
      (Nat.repr lines.length).data ++ (" files with changes".data)

/-- models/git_context.py RemoteInfo: one record per remote. -/
structure RemoteInfo where
  name : PyStr
  url : PyStr
  url_type : PyStr
  is_default_push : Bool
  is_default_pull : Bool
deriving DecidableEq, Repr

/-- state_scraper.py StateScraper._determine_url_type: classify a remote
url by its prefix. -/
def determine_url_type (url : PyStr) : PyStr :=
  if ("https://".data).isPrefixOf url then ("https".data)
  else if ("ssh://".data).isPrefixOf url ∨ '@' ∈ url then ("ssh".data)
  else if ("git://".data).isPrefixOf url then ("git".data)
  else ("unknown".data)

/-- Python str.strip applied with the two parenthesis characters, as in
parts[2].strip in StateScraper._parse_remotes. -/
def stripParens (s : PyStr) : PyStr :=
  let isParen := fun (c : Char) => c = '(' || c = ')'
  ((s.dropWhile isParen).reverse.dropWhile isParen).reverse

/-- The guards of the remote-parsing loop in
StateScraper._parse_remotes: skip blank lines, tokenize on whitespace,
require at least three tokens, and strip parentheses from the third. -/
def remoteLineTriple (line : PyStr) : Option (PyStr × PyStr × PyStr) :=
  if pyStrip line = [] then none
  else
    match pySplitWs line with
    | name :: url :: operation :: _ => some (name, url, stripParens operation)
    | _ => none

/-- The flag update of StateScraper._parse_remotes for one operation
token on an existing record. -/
def updateRemoteOperation (operation : PyStr) (r : RemoteInfo) : RemoteInfo :=
  if operation = ("push".data) then { r with is_default_push := true }
  else if operation = ("fetch".data) then { r with is_default_pull := true }
  else r

/-- The fresh record StateScraper._parse_remotes creates the first time
a remote name appears. -/
def initRemoteInfo (name url : PyStr) : RemoteInfo :=
  { name := name
    url := url
    url_type := determine_url_type url
    is_default_push := false
    is_default_pull := false }

/-- One iteration of the loop in StateScraper._parse_remotes over the
insertion-ordered mapping from remote names to records. -/
def insertRemoteLine (remote_data : List (PyStr × RemoteInfo)) (line : PyStr) :
    List (PyStr × RemoteInfo) :=
  match remoteLineTriple line with
  | none => remote_data
  | some (name, url, operation) =>
    let m :=
      if (remote_data.lookup name).isSome then remote_data
      else remote_data ++ [(name, initRemoteInfo name url)]
    m.map (fun p => if p.1 = name then (p.1, updateRemoteOperation operation p.2) else p)

/-- state_scraper.py StateScraper._parse_remotes: fold the lines into
the name-keyed mapping and return its values in insertion order. -/
def parse_remotes (remote_output : PyStr) : List RemoteInfo :=
  ((pySplitChar '\n' remote_output).foldl insertRemoteLine []).map Prod.snd

/-- Modelled from the spec, for comparison with the code: the url kind,
classified by prefix. -/
def specUrlKind (url : PyStr) : PyStr :=
  if ("https://".data).isPrefixOf url then ("https".data)
  else if ("ssh://".data).isPrefixOf url ∨ '@' ∈ url then ("ssh".data)
  else if ("git://".data).isPrefixOf url then ("git".data)
  else ("unknown".data)

/-- The parsed (name, url, operation) triples of a remote listing, in
input line order. -/
def specRemoteTriples (remote_output : PyStr) : List (PyStr × PyStr × PyStr) :=
  (pySplitChar '\n' remote_output).filterMap remoteLineTriple

/-- Order-preserving removal of duplicates, keeping the first
occurrence of each element. -/
def dedupFirst : List PyStr → List PyStr
  | [] => []
  | n :: ns => n :: (dedupFirst ns).filter (fun m => m ≠ n)

/-- The url established by the first triple carrying the given remote
name (the empty string when the name never occurs). -/
def firstUrlFor (ts : List (PyStr × PyStr × PyStr)) (name : PyStr) : PyStr :=
  match ts.filter (fun t => t.1 = name) with
  | t :: _ => t.2.1
  | [] => []

/-- Modelled from the spec, for comparison with the code: the record
for one remote name, with url and url kind from its first line and the
role flags accumulated over all of its lines. -/
def specRemoteRecord (ts : List (PyStr × PyStr × PyStr)) (name : PyStr) : RemoteInfo :=
  { name := name
    url := firstUrlFor ts name
    url_type := specUrlKind (firstUrlFor ts name)
    is_default_push := ts.any (fun t => t.1 = name ∧ t.2.2 = ("push".data))
    is_default_pull := ts.any (fun t => t.1 = name ∧ t.2.2 = ("fetch".data)) }

/-- Modelled from the spec, for comparison with the code: one record
per distinct remote name, ordered by first appearance. -/
def specParseRemotes (remote_output : PyStr) : List RemoteInfo :=
  let ts := specRemoteTriples remote_output
  (dedupFirst (ts.map (fun t => t.1))).map (specRemoteRecord ts)

/-- The name-keyed association list the remote-parsing loop builds: one
entry per distinct name in first-appearance order, carrying the spec
record of that name over the triples seen so far. -/
def specRemoteAssoc (ts : List (PyStr × PyStr × PyStr)) : List (PyStr × RemoteInfo) :=
  (dedupFirst (ts.map (fun t => t.1))).map (fun n => (n, specRemoteRecord ts n))

/-- models/git_context.py BranchInfo: one record per branch. -/
structure BranchInfo where
  name : PyStr
  is_current : Bool
  has_remote : Bool
  remote_name : Option PyStr
  ahead_count : Nat
  behind_count : Nat
  is_up_to_date : Bool
deriving DecidableEq, Repr

/-- ASCII decimal digit, as matched by the digit class of the two
tracking-count patterns in StateScraper._parse_branches. -/
def isAsciiDigit (c : Char) : Bool :=
  '0' ≤ c && c ≤ '9'

/-- Numeric value of a digit string, as Python int applied to a regex
group of digits. -/
def digitsToNat (ds : PyStr) : Nat :=
  ds.foldl (fun n c => n * 10 + (c.toNat - 48)) 0

/-- Regex search for digits, then at least one whitespace character,
then the given keyword: scan positions left to right; at each position
take the maximal digit run, require a nonempty whitespace run after it
and then the keyword, and return the digit value of the first position
where this matches (digits and whitespace are disjoint, so greedy
backtracking never helps and the maximal runs are faithful). -/
def searchCountPattern (keyword : PyStr) : PyStr → Option Nat
  | [] => none
  | c :: rest =>
    let ds := (c :: rest).takeWhile isAsciiDigit
    if ds ≠ [] then
      let after := (c :: rest).drop ds.length
      let ws := after.takeWhile isPySpace
      if ws ≠ [] ∧ keyword.isPrefixOf (after.drop ws.length) then
        some (digitsToNat ds)
      else searchCountPattern keyword rest
    else searchCountPattern keyword rest

/-- One iteration of the loop in StateScraper._parse_branches: strip the
line, detect and remove the current-branch marker, tokenize on
whitespace, read the bracketed remote-tracking annotation when present,
and scan the joined remaining tokens for the ahead and behind counts. -/
def parse_branch_line (raw_line : PyStr) : Option BranchInfo :=
  if pyStrip raw_line = [] then none
  else
    let line := pyStrip raw_line
    let is_current := ("* ".data).isPrefixOf line
    let line2 := if is_current then line.drop 2 else line
    match pySplitWs line2 with
    | [] => none
    | branch_name :: restParts =>
      let quad :=
        match restParts with
        | [] => (false, (none : Option PyStr), 0, 0)
        | second :: afterSecond =>
          if ("[".data).isPrefixOf second ∧ ("]".data).isSuffixOf second then
            let remote_info := (second.drop 1).dropLast
            if '/' ∈ remote_info then
              let rn := (pySplitChar '/' remote_info).getD 1 []
              let tracking_info := joinWithSpace afterSecond
              let ahead :=
                if afterSecond ≠ [] then
                  (searchCountPattern ("ahead".data) tracking_info).getD 0
                else 0
              let behind :=
                if afterSecond ≠ [] then
                  (searchCountPattern ("behind".data) tracking_info).getD 0
                else 0
              (true, some rn, ahead, behind)
            else (false, none, 0, 0)
          else (false, none, 0, 0)
      some { name := branch_name
             is_current := is_current
             has_remote := quad.1
             remote_name := quad.2.1
             ahead_count := quad.2.2.1
             behind_count := quad.2.2.2
             is_up_to_date := decide (quad.2.2.1 = 0 ∧ quad.2.2.2 = 0) }

/-- state_scraper.py StateScraper._parse_branches: parse every
non-blank line of the verbose branch listing. -/
def parse_branches (branch_output : PyStr) : List BranchInfo :=
  (pySplitChar '\n' branch_output).filterMap parse_branch_line

/-- Pydantic construction of models/git_context.py BranchInfo: the
fields name, is_current, has_remote and is_up_to_date are required and
have no default, while remote_name, ahead_count and behind_count
default to none, 0 and 0; construction with a required field missing
fails with the list of missing field names. -/
def mkBranchInfo (name : Option PyStr) (is_current : Option Bool)
    (has_remote : Option Bool) (remote_name : Option (Option PyStr))
    (ahead_count : Option Nat) (behind_count : Option Nat)
    (is_up_to_date : Option Bool) : Except (List PyStr) BranchInfo :=
  match name, is_current, has_remote, is_up_to_date with
  | some n, some c, some hr, some u =>
    .ok { name := n
          is_current := c
          has_remote := hr
          remote_name := remote_name.getD none
          ahead_count := ahead_count.getD 0
          behind_count := behind_count.getD 0
          is_up_to_date := u }
  | _, _, _, _ =>
    .error ((if name.isNone then [("name".data)] else []) ++
            (if is_current.isNone then [("is_current".data)] else []) ++
            (if has_remote.isNone then [("has_remote".data)] else []) ++
            (if is_up_to_date.isNone then [("is_up_to_date".data)] else []))

/-- The current-branch selection step of StateScraper.scrape_state:
search the parsed local branches for the reported current branch name,
with a fallback record built from only the name and the current flag;
Python evaluates the default argument of the next builtin eagerly, so
the fallback record is constructed and validated before the search. -/
def selectCurrentBranch (all_branches : List BranchInfo) (current_branch_name : PyStr) :
    Except (List PyStr) BranchInfo :=
  match mkBranchInfo (some current_branch_name) (some true) none none none none none with
  | .error e => .error e
  | .ok fallback =>
    .ok ((all_branches.find? (fun b => b.name = current_branch_name)).getD fallback)

/-- models/git_context.py GitContext, restricted to the fields the
consistency validators read or write: the two file-status lists, the
conflict flag and the four aggregate counts.  The remaining fields
(paths, branches, remotes, commits, stashes, progress flags, capture
time) neither appear in the validators nor interact with these. -/
structure GitContext where
  working_directory_status : List FileStatus
  staging_area_status : List FileStatus
  has_conflicts : Bool
  total_files : Nat
  modified_files : Nat
  staged_files : Nat
  untracked_files : Nat
deriving DecidableEq, Repr

/-- models/git_context.py GitContext.validate_conflicts: raise the
conflict flag when some working-tree entry has its conflict flag set;
an already-true flag is kept as supplied. -/
def validate_conflicts (working_directory_status : List FileStatus) (v : Bool) : Bool :=
  if working_directory_status.any (fun f => f.has_conflicts) ∧ v = false then true
  else v

/-- models/git_context.py GitContext.validate_file_counts for the
modified_files field: replace a mismatched supplied value by the count
of working-tree entries in the three modified categories. -/
def validate_modified_files (working_directory_status : List FileStatus) (v : Nat) : Nat :=
  let actual :=
    (working_directory_status.filter (fun f =>
      f.status = ("modified".data) ∨ f.status = ("deleted".data) ∨
      f.status = ("renamed".data))).length
  if actual ≠ v then actual else v

/-- models/git_context.py GitContext.validate_file_counts for the
staged_files field: replace a mismatched supplied value by the count of
staging-area entries with the staged flag. -/
def validate_staged_files (staging_area_status : List FileStatus) (v : Nat) : Nat :=
  let actual := (staging_area_status.filter (fun f => f.is_staged)).length
  if actual ≠ v then actual else v

/-- models/git_context.py GitContext.validate_file_counts for the
untracked_files field: replace a mismatched supplied value by the count
of working-tree entries in the untracked category. -/
def validate_untracked_files (working_directory_status : List FileStatus) (v : Nat) : Nat :=
  let actual :=
    (working_directory_status.filter (fun f => f.status = ("untracked".data))).length
  if actual ≠ v then actual else v

/-- Pydantic construction of models/git_context.py GitContext: each
field validator runs on its supplied value with the earlier fields in
scope; total_files has no validator. -/
def mkGitContext (working_directory_status staging_area_status : List FileStatus)
    (has_conflicts : Bool) (total_files modified_files staged_files untracked_files : Nat) :
    GitContext :=
  { working_directory_status := working_directory_status
    staging_area_status := staging_area_status
    has_conflicts := validate_conflicts working_directory_status has_conflicts
    total_files := total_files
    modified_files := validate_modified_files working_directory_status modified_files
    staged_files := validate_staged_files staging_area_status staged_files
    untracked_files := validate_untracked_files working_directory_status untracked_files }

/-- The summary-statistics step of StateScraper.scrape_state: compute
the aggregate counts and the conflict flag from the two parsed status
lists and construct the validated context. -/
def scrapeSnapshot (working_directory_status staging_area_status : List FileStatus) :
    GitContext :=
  let modified_files :=
    (working_directory_status.filter (fun f =>
      f.status = ("modified".data) ∨ f.status = ("deleted".data) ∨
      f.status = ("renamed".data))).length
  let staged_files := (staging_area_status.filter (fun f => f.is_staged)).length
  let untracked_files :=
    (working_directory_status.filter (fun f => f.status = ("untracked".data))).length
  let total_files := working_directory_status.length + staging_area_status.length
  let has_conflicts := working_directory_status.any (fun f => f.has_conflicts)
  mkGitContext working_directory_status staging_area_status has_conflicts
    total_files modified_files staged_files untracked_files

/-- Python substring containment: the pattern occurs as a prefix at
some position of the string. -/
def containsSub (pattern : PyStr) : PyStr → Bool
  | [] => pattern.isPrefixOf []
  | c :: rest => pattern.isPrefixOf (c :: rest) || containsSub pattern rest

/-- mcp_wrapper.py MCPWrapper._prepare_execution_plan: the fixed list
of dangerous command patterns. -/
def dangerous_patterns : List PyStr :=
  [("git reset --hard".data), ("git push --force".data), ("git clean -fd".data),
   ("git branch -D".data), ("git remote remove".data)]

/-- The destructiveness classification of
MCPWrapper._prepare_execution_plan: a command is dangerous when it
contains any of the fixed patterns as a substring. -/
def commandIsDangerous (command : PyStr) : Bool :=
  dangerous_patterns.any (fun pattern => containsSub pattern command)

/-- The substring set named by the spec for the destructiveness
classification, without the leading executable word. -/
def claimedDangerousSubstrings : List PyStr :=
  [("reset --hard".data), ("push --force".data), ("clean -fd".data),
   ("branch -D".data), ("remote remove".data)]

/-- The execution plan of mcp_wrapper.py
MCPWrapper._prepare_execution_plan, restricted to the fields the claims
mention. -/
structure ExecutionPlan where
  command : PyStr
  is_destructive : Bool
  requires_confirmation : Bool
  estimated_risk : PyStr
deriving DecidableEq, Repr

/-- mcp_wrapper.py MCPWrapper._prepare_execution_plan: strip the
generated command, reject commands not starting with the executable
word, classify destructiveness, and require confirmation for dangerous
commands regardless of the configured default. -/
def prepare_execution_plan (require_confirmation : Bool) (llm_command : PyStr)
    (llm_is_destructive : Bool) : Option ExecutionPlan :=
  let command := pyStrip llm_command
  if ("git ".data).isPrefixOf command then
    let is_dangerous := commandIsDangerous command
    some { command := command
           is_destructive := is_dangerous || llm_is_destructive
           requires_confirmation := is_dangerous || require_confirmation
           estimated_risk := if is_dangerous then ("HIGH".data) else ("LOW".data) }
  else none


/-- A string containing a non-whitespace character does not strip to
the empty string. -/
theorem pyStrip_ne_nil_of_mem {s : PyStr} {c : Char} (hc : c ∈ s)
    (hns : isPySpace c = false) : pyStrip s ≠ [] := by
  intro h
  unfold pyStrip at h
  rw [List.reverse_eq_nil_iff, List.dropWhile_eq_nil_iff] at h
  have hdrop : ∀ a ∈ s.dropWhile isPySpace, isPySpace a = true := by
    intro a ha
    exact h a (List.mem_reverse.mpr ha)
  have hsplit := List.takeWhile_append_dropWhile (p := isPySpace) (l := s)
  rw [← hsplit] at hc
  rcases List.mem_append.mp hc with htake | hdr
  · exact absurd (List.mem_takeWhile_imp htake) (by simp [hns])
  · exact absurd (hdrop c hdr) (by simp [hns])

/-- The status-parsing fold is the pair of per-line filterMaps: each
kept line appends its entry to each list exactly when the matching
status character is not a space, in input order. -/
theorem foldl_processStatusLine (ls : List PyStr) :
    ∀ acc : List FileStatus × List FileStatus,
      ls.foldl processStatusLine acc =
        (acc.1 ++ ls.filterMap workingLineEntry, acc.2 ++ ls.filterMap stagingLineEntry) := by
  induction ls with
  | nil => intro acc; simp
  | cons l ls ih =>
    intro acc
    rw [List.foldl_cons, ih]
    cases h : statusLineEntry l with
    | none =>
      simp [processStatusLine, workingLineEntry, stagingLineEntry, h, List.filterMap_cons]
    | some t =>
      obtain ⟨x, y, p⟩ := t
      by_cases hy : y = ' ' <;> by_cases hx : x = ' ' <;>
        simp [processStatusLine, workingLineEntry, stagingLineEntry, h,
          List.filterMap_cons, hy, hx]

/-- Classification of a status line whose index character is the only
non-space status character: category from the index character, tracked,
staged, origin staged. -/
theorem create_file_status_index_only (path : PyStr) (x : Char) (hx : x ≠ ' ') :
    (create_file_status path x ' ').status = get_status_description x ∧
    (create_file_status path x ' ').is_tracked = true ∧
    (create_file_status path x ' ').is_staged = true ∧
    (create_file_status path x ' ').change_type = some ("staged".data) := by
  unfold create_file_status
  rw [if_neg (fun h => absurd h.2 (by decide)), if_neg (fun h => h.2 rfl), if_pos ⟨hx, rfl⟩]
  exact ⟨rfl, rfl, rfl, rfl⟩

/-- Classification of a status line whose worktree character is the
only non-space status character and is not the untracked marker:
category from the worktree character, tracked, not staged, origin
unstaged. -/
theorem create_file_status_worktree_only (path : PyStr) (y : Char) (hy : y ≠ ' ')
    (hyq : y ≠ '?') :
    (create_file_status path ' ' y).status = get_status_description y ∧
    (create_file_status path ' ' y).is_tracked = true ∧
    (create_file_status path ' ' y).is_staged = false ∧
    (create_file_status path ' ' y).change_type = some ("unstaged".data) := by
  unfold create_file_status
  rw [if_neg (fun h => hyq h.2), if_pos ⟨rfl, hy⟩]
  exact ⟨rfl, rfl, rfl, rfl⟩

/-- C1: the claim expects the line with two untracked markers to yield
one working-tree entry with category untracked, staged false, tracked
false and no change-origin tag, and no staging-area entry.  The code
instead sends this line through the both-non-space branch: the single
entry has category untracked but staged true, tracked true and origin
both, and it is appended to the staging-area list as well.  This
theorem evaluates the parser at that input, exhibiting the divergence. -/
theorem c1_untracked_line_behavior :
    parse_git_status ("?? newfile.txt".data) =
      ([{ file_path := ("newfile.txt".data), status := ("untracked".data),
          is_staged := true, is_tracked := true,
          change_type := some ("both".data), details := none, has_conflicts := false }],
       [{ file_path := ("newfile.txt".data), status := ("untracked".data),
          is_staged := true, is_tracked := true,
          change_type := some ("both".data), details := none, has_conflicts := false }]) ∧
    ((parse_git_status ("?? newfile.txt".data)).1.all
      (fun f => f.status = ("untracked".data) → f.is_staged = false)) = false := by
  decide

/-- C4: a status line whose index character is the only non-space
status character yields a single entry with category from the index
character, tracked, staged, origin staged, appended only to the
staging-area list; a line whose worktree character is the only
non-space status character (and is not the untracked marker) yields a
single entry with category from the worktree character, tracked, not
staged, origin unstaged, appended only to the working-tree list. -/
theorem c4_single_status_char_classification (x y : Char) (path : PyStr)
    (hp : path ≠ []) (hx : isPySpace x = false) (hy : isPySpace y = false)
    (hyq : y ≠ '?') :
    (processStatusLine ([], []) (x :: ' ' :: ' ' :: path) =
       ([], [create_file_status path x ' ']) ∧
     (create_file_status path x ' ').status = get_status_description x ∧
     (create_file_status path x ' ').is_tracked = true ∧
     (create_file_status path x ' ').is_staged = true ∧
     (create_file_status path x ' ').change_type = some ("staged".data)) ∧
    (processStatusLine ([], []) (' ' :: y :: ' ' :: path) =
       ([create_file_status path ' ' y], []) ∧
     (create_file_status path ' ' y).status = get_status_description y ∧
     (create_file_status path ' ' y).is_tracked = true ∧
     (create_file_status path ' ' y).is_staged = false ∧
     (create_file_status path ' ' y).change_type = some ("unstaged".data)) := by
  have hxs : x ≠ ' ' := by
    intro h
    rw [h] at hx
    exact absurd hx (by decide)
  have hys : y ≠ ' ' := by
    intro h
    rw [h] at hy
    exact absurd hy (by decide)
  have hb1 : pyStrip (x :: ' ' :: ' ' :: path) ≠ [] :=
    pyStrip_ne_nil_of_mem (List.mem_cons_self x _) hx
  have hb2 : pyStrip (' ' :: y :: ' ' :: path) ≠ [] :=
    pyStrip_ne_nil_of_mem (by simp) hy
  have he1 : statusLineEntry (x :: ' ' :: ' ' :: path) = some (x, ' ', path) := by
    simp [statusLineEntry, hb1, hp]
  have he2 : statusLineEntry (' ' :: y :: ' ' :: path) = some (' ', y, path) := by
    simp [statusLineEntry, hb2, hp]
  constructor
  · refine ⟨?_, create_file_status_index_only path x hxs⟩
    simp [processStatusLine, he1, hxs]
  · refine ⟨?_, create_file_status_worktree_only path y hys hyq⟩
    simp [processStatusLine, he2, hys]

/-- Witness for C4 at the two scenario lines. -/
theorem c4_single_status_char_classification_witness :
    processStatusLine ([], []) ('M' :: ' ' :: ' ' :: ("file.txt".data)) =
      ([], [create_file_status ("file.txt".data) 'M' ' ']) ∧
    processStatusLine ([], []) (' ' :: 'M' :: ' ' :: ("file.txt".data)) =
      ([create_file_status ("file.txt".data) ' ' 'M'], []) := by
  have h := c4_single_status_char_classification 'M' 'M' ("file.txt".data)
    (by decide) (by decide) (by decide) (by decide)
  exact ⟨h.1.1, h.2.1⟩

/-- C5: for every status input text, the working-tree output is the
in-order filterMap keeping exactly the lines with a non-space worktree
character, the staging-area output is the in-order filterMap keeping
exactly the lines with a non-space index character (a line with both
characters non-space contributes its one entry to both), the only lines
dropped are blank lines and lines whose path part from position 3 is
empty, and the empty input yields two empty lists. -/
theorem c5_parse_status_list_structure (status_output : PyStr) :
    (parse_git_status status_output).1 =
      (pySplitChar '\n' status_output).filterMap workingLineEntry ∧
    (parse_git_status status_output).2 =
      (pySplitChar '\n' status_output).filterMap stagingLineEntry ∧
    parse_git_status [] = ([], []) := by
  refine ⟨?_, ?_, by decide⟩ <;>
    simp [parse_git_status, foldl_processStatusLine]

/-- The conflict validator keeps a supplied true flag and raises a
false flag exactly when some working-tree entry has a conflict. -/
theorem validate_conflicts_eq (wds : List FileStatus) (v : Bool) :
    validate_conflicts wds v = (v || wds.any (fun f => f.has_conflicts)) := by
  unfold validate_conflicts
  cases v <;> by_cases h : wds.any (fun f => f.has_conflicts) = true <;> simp [h]

/-- The modified-files validator always returns the recomputed count. -/
theorem validate_modified_files_eq (wds : List FileStatus) (v : Nat) :
    validate_modified_files wds v =
      (wds.filter (fun f =>
        f.status = ("modified".data) ∨ f.status = ("deleted".data) ∨
        f.status = ("renamed".data))).length := by
  unfold validate_modified_files
  dsimp only
  split
  · rfl
  · next h => exact (not_ne_iff.mp h).symm

/-- The staged-files validator always returns the recomputed count. -/
theorem validate_staged_files_eq (sas : List FileStatus) (v : Nat) :
    validate_staged_files sas v = (sas.filter (fun f => f.is_staged)).length := by
  unfold validate_staged_files
  dsimp only
  split
  · rfl
  · next h => exact (not_ne_iff.mp h).symm

/-- The untracked-files validator always returns the recomputed count. -/
theorem validate_untracked_files_eq (wds : List FileStatus) (v : Nat) :
    validate_untracked_files wds v =
      (wds.filter (fun f => f.status = ("untracked".data))).length := by
  unfold validate_untracked_files
  dsimp only
  split
  · rfl
  · next h => exact (not_ne_iff.mp h).symm

/-- C2 counterexample: constructing the context model with an
inconsistent supplied conflict flag and total count (conflict flag true
over empty lists, total 5 over empty lists) yields a snapshot whose
conflict flag is still true with no conflicting entry and whose total
differs from the sum of the list lengths, so the model does not
recompute and correct every aggregate field. -/
theorem c2_model_correction_counterexample :
    (mkGitContext [] [] true 5 0 0 0).has_conflicts = true ∧
    ((mkGitContext [] [] true 5 0 0 0).working_directory_status.any
      (fun f => f.has_conflicts)) = false ∧
    (mkGitContext [] [] true 5 0 0 0).total_files ≠
      (mkGitContext [] [] true 5 0 0 0).working_directory_status.length +
      (mkGitContext [] [] true 5 0 0 0).staging_area_status.length := by
  decide

/-- C2 (amended): every snapshot produced by the scrape aggregation
step satisfies the five aggregate invariants, because the aggregator
computes them from the parsed lists; and the model validators recompute
the modified, staged and untracked counts for any supplied values and
raise (but never lower) the conflict flag, while total_files has no
validator. -/
theorem c2_scrape_aggregate_invariants (wds sas : List FileStatus)
    (hc : Bool) (tf mf sf uf : Nat) :
    ((scrapeSnapshot wds sas).modified_files =
       (wds.filter (fun f =>
         f.status = ("modified".data) ∨ f.status = ("deleted".data) ∨
         f.status = ("renamed".data))).length ∧
     (scrapeSnapshot wds sas).staged_files = (sas.filter (fun f => f.is_staged)).length ∧
     (scrapeSnapshot wds sas).untracked_files =
       (wds.filter (fun f => f.status = ("untracked".data))).length ∧
     (scrapeSnapshot wds sas).total_files = wds.length + sas.length ∧
     ((scrapeSnapshot wds sas).has_conflicts = true ↔
       ∃ f ∈ wds, f.has_conflicts = true)) ∧
    ((mkGitContext wds sas hc tf mf sf uf).modified_files =
       (wds.filter (fun f =>
         f.status = ("modified".data) ∨ f.status = ("deleted".data) ∨
         f.status = ("renamed".data))).length ∧
     (mkGitContext wds sas hc tf mf sf uf).staged_files =
       (sas.filter (fun f => f.is_staged)).length ∧
     (mkGitContext wds sas hc tf mf sf uf).untracked_files =
       (wds.filter (fun f => f.status = ("untracked".data))).length ∧
     (mkGitContext wds sas hc tf mf sf uf).has_conflicts =
       (hc || wds.any (fun f => f.has_conflicts))) := by
  constructor
  · refine ⟨?_, ?_, ?_, rfl, ?_⟩
    · exact validate_modified_files_eq wds _
    · exact validate_staged_files_eq sas _
    · exact validate_untracked_files_eq wds _
    · show validate_conflicts wds (wds.any (fun f => f.has_conflicts)) = true ↔ _
      rw [validate_conflicts_eq, Bool.or_self, List.any_eq_true]
  · exact ⟨validate_modified_files_eq wds mf, validate_staged_files_eq sas sf,
      validate_untracked_files_eq wds uf, validate_conflicts_eq wds hc⟩

/-- C3 counterexample: the command below contains the bare substring of
the claimed set but none of the patterns the code actually checks, so
the claimed iff fails: the code classifies it as not destructive. -/
theorem c3_substring_set_counterexample :
    (claimedDangerousSubstrings.any
      (fun p => containsSub p ("git do reset --hard".data))) = true ∧
    commandIsDangerous ("git do reset --hard".data) = false := by
  decide

/-- C3 (amended): a command string is classified destructive iff it
contains one of the five git-prefixed literal substrings the code
checks; and the scenario command is classified destructive, with its
execution plan requiring confirmation regardless of the configured
confirmation default and of the generated destructiveness flag. -/
theorem c3_destructive_iff_prefixed_patterns (command : PyStr)
    (require_confirmation llm_is_destructive : Bool) :
    (commandIsDangerous command = true ↔
      (containsSub ("git reset --hard".data) command = true ∨
       containsSub ("git push --force".data) command = true ∨
       containsSub ("git clean -fd".data) command = true ∨
       containsSub ("git branch -D".data) command = true ∨
       containsSub ("git remote remove".data) command = true)) ∧
    (prepare_execution_plan require_confirmation ("git reset --hard HEAD~1".data)
        llm_is_destructive).map (fun p => p.requires_confirmation) = some true := by
  constructor
  · simp [commandIsDangerous, dangerous_patterns, List.any_cons, List.any_nil,
      Bool.or_eq_true]
  · cases require_confirmation <;> cases llm_is_destructive <;> decide

/-- C6: the command runner returns the stripped stdout exactly on exit
code 0; on a non-zero exit code it fails with the joined command
string, the stripped stderr or the fixed unknown-error text when that
is empty, and the exit code; on timeout it fails with exit code -1 and
the fixed timeout message; in both failure cases no value is
returned. -/
theorem c6_run_git_command_contract (git_path : PyStr) (command : List PyStr)
    (returncode : Int) (stdout stderr : PyStr) :
    (returncode = 0 →
      run_git_command git_path command (.completed returncode stdout stderr) =
        .ok (pyStrip stdout)) ∧
    (returncode ≠ 0 →
      run_git_command git_path command (.completed returncode stdout stderr) =
        .error { command := joinWithSpace (git_path :: command)
                 error_output :=
                   if pyStrip stderr = [] then ("Unknown error".data) else pyStrip stderr
                 return_code := returncode }) ∧
    run_git_command git_path command .timedOut =
      .error { command := joinWithSpace (git_path :: command)
               error_output := ("Command timed out".data)
               return_code := -1 } := by
  refine ⟨fun h => ?_, fun h => ?_, rfl⟩
  · simp [run_git_command, h]
  · simp [run_git_command, h]

/-- Witness for C6 at concrete outcomes of a status invocation. -/
theorem c6_run_git_command_contract_witness :
    run_git_command ("git".data) [("status".data)] (.completed 0 ("out".data) []) =
      .ok (pyStrip ("out".data)) ∧
    run_git_command ("git".data) [("status".data)] (.completed 1 [] ("boom".data)) =
      .error { command := joinWithSpace [("git".data), ("status".data)]
               error_output :=
                 if pyStrip ("boom".data) = [] then ("Unknown error".data)
                 else pyStrip ("boom".data)
               return_code := 1 } ∧
    run_git_command ("git".data) [("status".data)] .timedOut =
      .error { command := joinWithSpace [("git".data), ("status".data)]
               error_output := ("Command timed out".data)
               return_code := -1 } := by
  have h0 := c6_run_git_command_contract ("git".data) [("status".data)] 0 ("out".data) []
  have h1 := c6_run_git_command_contract ("git".data) [("status".data)] 1 [] ("boom".data)
  exact ⟨h0.1 rfl, h1.2.1 (by decide), h1.2.2⟩

/-- C9: the quick-status operation is a total function of the
underlying command outcome; it returns the clean message when the
command succeeds with blank output, the message naming the count of
non-blank status lines when the command succeeds with non-blank
output, and the degradation message when the command fails. -/
theorem c9_quick_status_total (git_path : PyStr) (outcome : SubprocessOutcome) :
    (∀ e, run_git_command git_path [("status".data), ("--short".data)] outcome = .error e →
      get_quick_status git_path outcome = ("Unable to determine status".data)) ∧
    (∀ out, run_git_command git_path [("status".data), ("--short".data)] outcome = .ok out →
      pyStrip out = [] →
      get_quick_status git_path outcome = ("Working directory clean".data)) ∧
    (∀ out, run_git_command git_path [("status".data), ("--short".data)] outcome = .ok out →
      pyStrip out ≠ [] →
      get_quick_status git_path outcome =
        (Nat.repr ((pySplitChar '\n' out).filter (fun line => pyStrip line ≠ [])).length).data ++
          (" files with changes".data)) := by
  refine ⟨fun e he => ?_, fun out ho hs => ?_, fun out ho hs => ?_⟩
  · unfold get_quick_status
    rw [he]
  · unfold get_quick_status
    rw [ho]
    simp [hs]
  · unfold get_quick_status
    rw [ho]
    simp [if_neg hs]

/-- Witness for C9 at a timeout, a blank success and a one-line
success. -/
theorem c9_quick_status_total_witness :
    get_quick_status ("git".data) .timedOut = ("Unable to determine status".data) ∧
    get_quick_status ("git".data) (.completed 0 [] []) = ("Working directory clean".data) ∧
    get_quick_status ("git".data) (.completed 0 (" M a.txt".data) []) =
      ("1 files with changes".data) := by
  refine ⟨(c9_quick_status_total ("git".data) .timedOut).1 _ rfl,
    (c9_quick_status_total ("git".data) (.completed 0 [] [])).2.1 [] rfl rfl, ?_⟩
  have h := (c9_quick_status_total ("git".data) (.completed 0 (" M a.txt".data) [])).2.2
    (pyStrip (" M a.txt".data)) rfl (by decide)
  exact h.trans (by decide)

/-- C10: whenever the reported current branch name matches no parsed
local branch record, the current-branch selection step of the scrape
fails: the fallback record supplies only the name and the current flag,
and the required has-remote and up-to-date fields are missing, so
construction of the record is rejected and the scrape raises instead of
returning a snapshot. -/
theorem c10_current_branch_fallback_fails (all_branches : List BranchInfo)
    (current_branch_name : PyStr)
    (_h : ∀ b ∈ all_branches, b.name ≠ current_branch_name) :
    selectCurrentBranch all_branches current_branch_name =
      .error [("has_remote".data), ("is_up_to_date".data)] := by
  simp [selectCurrentBranch, mkBranchInfo]

/-- Witness for C10 at an empty branch listing. -/
theorem c10_current_branch_fallback_fails_witness :
    selectCurrentBranch [] ("main".data) =
      .error [("has_remote".data), ("is_up_to_date".data)] :=
  c10_current_branch_fallback_fails [] ("main".data) (by simp)

/-- Membership in the order-preserving dedup is membership in the
original list. -/
theorem mem_dedupFirst {n : PyStr} : ∀ {ms : List PyStr}, n ∈ dedupFirst ms ↔ n ∈ ms := by
  intro ms
  induction ms with
  | nil => simp [dedupFirst]
  | cons m ms ih =>
    simp only [dedupFirst, List.mem_cons, List.mem_filter, ih, decide_eq_true_eq]
    by_cases h : n = m
    · simp [h]
    · simp [h]

/-- Unfolding of the order-preserving dedup at a cons. -/
theorem dedupFirst_cons (m : PyStr) (ms : List PyStr) :
    dedupFirst (m :: ms) = m :: (dedupFirst ms).filter (fun m2 => m2 ≠ m) := rfl

/-- Appending one element to the input of the order-preserving dedup
appends it to the output exactly when it is new. -/
theorem dedupFirst_append_singleton (ms : List PyStr) (n : PyStr) :
    dedupFirst (ms ++ [n]) =
      if n ∈ ms then dedupFirst ms else dedupFirst ms ++ [n] := by
  induction ms with
  | nil => simp [dedupFirst]
  | cons m ms ih =>
    rw [List.cons_append, dedupFirst_cons, ih, dedupFirst_cons]
    by_cases hn : n ∈ ms
    · rw [if_pos hn, if_pos (List.mem_cons_of_mem m hn)]
    · rw [if_neg hn]
      by_cases hm : n = m
      · subst hm
        rw [if_pos (List.mem_cons_self n ms), List.filter_append]
        simp
      · have hnotc : ¬ n ∈ m :: ms := by
          intro hmem
          rcases List.mem_cons.mp hmem with h1 | h2
          · exact hm h1
          · exact hn h2
        rw [if_neg hnotc, List.filter_append]
        simp [hm]

/-- Lookup in an association list built by pairing each name with a
record succeeds exactly for the listed names. -/
theorem lookup_map_pair_isSome (ns : List PyStr) (F : PyStr → RemoteInfo) (n : PyStr) :
    ((ns.map (fun m => (m, F m))).lookup n).isSome = true ↔ n ∈ ns := by
  induction ns with
  | nil => simp [List.lookup]
  | cons m ms ih =>
    by_cases h : n = m
    · subst h
      simp [List.lookup]
    · have hb : (n == m) = false := beq_eq_false_iff_ne.mpr h
      simp [List.lookup, hb, ih, h]

/-- The per-line flag update is an or-accumulation of the two role
flags. -/
theorem updateRemoteOperation_eq (o : PyStr) (r : RemoteInfo) :
    updateRemoteOperation o r =
      { r with is_default_push := r.is_default_push || decide (o = ("push".data))
               is_default_pull := r.is_default_pull || decide (o = ("fetch".data)) } := by
  unfold updateRemoteOperation
  by_cases h1 : o = ("push".data)
  · subst h1
    have h2 : ¬ (("push".data : PyStr) = ("fetch".data)) := by decide
    simp [h2]
  · by_cases h2 : o = ("fetch".data)
    · subst h2
      have h3 : ¬ (("fetch".data : PyStr) = ("push".data)) := by decide
      simp [h3]
    · simp [h1, h2]

/-- Updating the record of a key absent from a pair list leaves the
list unchanged. -/
theorem map_updateRemote_of_no_key (l : List (PyStr × RemoteInfo)) (n o : PyStr)
    (h : ∀ p ∈ l, p.1 ≠ n) :
    l.map (fun p => if p.1 = n then (p.1, updateRemoteOperation o p.2) else p) = l := by
  induction l with
  | nil => rfl
  | cons q l ih =>
    simp only [List.map_cons]
    rw [if_neg (h q (List.mem_cons_self q l)),
      ih (fun p hp => h p (List.mem_cons_of_mem q hp))]

/-- Appending a triple of a different name does not change the first
url of a name. -/
theorem firstUrlFor_append_ne (ts : List (PyStr × PyStr × PyStr))
    (t : PyStr × PyStr × PyStr) (m : PyStr) (h : t.1 ≠ m) :
    firstUrlFor (ts ++ [t]) m = firstUrlFor ts m := by
  unfold firstUrlFor
  rw [List.filter_append]
  have hnil : ([t].filter (fun t2 => t2.1 = m)) = [] := by simp [h]
  rw [hnil, List.append_nil]

/-- For a name never seen before, the appended triple establishes the
first url. -/
theorem firstUrlFor_append_fresh (ts : List (PyStr × PyStr × PyStr))
    (t : PyStr × PyStr × PyStr) (h : ∀ t2 ∈ ts, t2.1 ≠ t.1) :
    firstUrlFor (ts ++ [t]) t.1 = t.2.1 := by
  unfold firstUrlFor
  rw [List.filter_append]
  have hnil : ts.filter (fun t2 => t2.1 = t.1) = [] :=
    List.filter_eq_nil_iff.mpr (fun a ha => by simp [h a ha])
  rw [hnil]
  simp

/-- For a name already present, appending any triple does not change
the first url of that name. -/
theorem firstUrlFor_append_of_mem (ts : List (PyStr × PyStr × PyStr))
    (t : PyStr × PyStr × PyStr) (n : PyStr) (h : ∃ t2 ∈ ts, t2.1 = n) :
    firstUrlFor (ts ++ [t]) n = firstUrlFor ts n := by
  unfold firstUrlFor
  rw [List.filter_append]
  obtain ⟨t2, ht2, he⟩ := h
  cases hf : ts.filter (fun t3 => t3.1 = n) with
  | nil =>
    have hcontra := List.filter_eq_nil_iff.mp hf t2 ht2
    simp [he] at hcontra
  | cons a l => simp

/-- The spec url-kind classification and the code url-type
classification are the same function. -/
theorem specUrlKind_eq_determine (u : PyStr) : specUrlKind u = determine_url_type u := rfl

/-- Appending a triple of a different name does not change the spec
record of a name. -/
theorem specRemoteRecord_append_ne (ts : List (PyStr × PyStr × PyStr))
    (t : PyStr × PyStr × PyStr) (m : PyStr) (h : t.1 ≠ m) :
    specRemoteRecord (ts ++ [t]) m = specRemoteRecord ts m := by
  unfold specRemoteRecord
  rw [firstUrlFor_append_ne ts t m h]
  simp [List.any_append, h]

/-- Appending a triple of a name already present updates the spec
record of that name by the flag update for the appended operation. -/
theorem specRemoteRecord_append_mem (ts : List (PyStr × PyStr × PyStr))
    (n u o : PyStr) (h : ∃ t2 ∈ ts, t2.1 = n) :
    specRemoteRecord (ts ++ [(n, u, o)]) n =
      updateRemoteOperation o (specRemoteRecord ts n) := by
  rw [updateRemoteOperation_eq]
  unfold specRemoteRecord
  rw [firstUrlFor_append_of_mem ts (n, u, o) n h]
  simp [List.any_append]

/-- Appending a triple of a fresh name makes its spec record the flag
update of the freshly initialized record. -/
theorem specRemoteRecord_append_fresh (ts : List (PyStr × PyStr × PyStr))
    (n u o : PyStr) (h : ∀ t2 ∈ ts, t2.1 ≠ n) :
    specRemoteRecord (ts ++ [(n, u, o)]) n =
      updateRemoteOperation o (initRemoteInfo n u) := by
  rw [updateRemoteOperation_eq]
  unfold specRemoteRecord initRemoteInfo
  rw [firstUrlFor_append_fresh ts (n, u, o) h]
  have hfalse : ∀ w : PyStr, ts.any (fun t => t.1 = n ∧ t.2.2 = w) = false := by
    intro w
    rw [List.any_eq_false]
    intro t ht
    simp [h t ht]
  simp only [List.any_append, hfalse, Bool.false_or, List.any_cons, List.any_nil,
    Bool.or_false, specUrlKind_eq_determine]
  simp

/-- The remote-parsing fold builds exactly the spec association list of
the parsed triples. -/
theorem foldl_insertRemoteLine (ls : List PyStr) :
    ls.foldl insertRemoteLine [] = specRemoteAssoc (ls.filterMap remoteLineTriple) := by
  induction ls using List.reverseRecOn with
  | nil => rfl
  | append_singleton ls l ih =>
    rw [List.foldl_append, List.foldl_cons, List.foldl_nil, ih, List.filterMap_append]
    cases ht : remoteLineTriple l with
    | none =>
      simp [insertRemoteLine, ht, List.filterMap_cons]
    | some tr =>
      obtain ⟨n, u, o⟩ := tr
      have hfm : ([l].filterMap remoteLineTriple) = [(n, u, o)] := by
        simp [List.filterMap_cons, ht]
      rw [hfm]
      set ts := ls.filterMap remoteLineTriple with hts
      by_cases hmem : n ∈ ts.map (fun t => t.1)
      · have hex : ∃ t2 ∈ ts, t2.1 = n := by
          rcases List.mem_map.mp hmem with ⟨t2, ht2, he⟩
          exact ⟨t2, ht2, he⟩
        have hlookup : ((specRemoteAssoc ts).lookup n).isSome = true := by
          unfold specRemoteAssoc
          exact (lookup_map_pair_isSome _ _ n).mpr (mem_dedupFirst.mpr hmem)
        unfold insertRemoteLine
        rw [ht]
        dsimp only
        rw [if_pos hlookup]
        unfold specRemoteAssoc
        rw [List.map_map, List.map_append]
        dsimp only [List.map_cons, List.map_nil]
        rw [dedupFirst_append_singleton, if_pos hmem]
        apply List.map_congr_left
        intro m hm
        by_cases hmn : m = n
        · subst hmn
          dsimp only [Function.comp]
          rw [if_pos rfl, specRemoteRecord_append_mem ts m u o hex]
        · dsimp only [Function.comp]
          rw [if_neg hmn, specRemoteRecord_append_ne ts (n, u, o) m (fun he => hmn he.symm)]
      · have hno : ∀ t2 ∈ ts, t2.1 ≠ n := by
          intro t2 ht2 he
          exact hmem (List.mem_map.mpr ⟨t2, ht2, he⟩)
        have hkeys : ∀ p ∈ specRemoteAssoc ts, p.1 ≠ n := by
          intro p hp
          unfold specRemoteAssoc at hp
          rcases List.mem_map.mp hp with ⟨m, hm, rfl⟩
          dsimp only
          intro he
          exact hmem (mem_dedupFirst.mp (he ▸ hm))
        have hlookupneg : ¬ ((specRemoteAssoc ts).lookup n).isSome = true := by
          unfold specRemoteAssoc
          rw [lookup_map_pair_isSome]
          exact fun hc => hmem (mem_dedupFirst.mp hc)
        unfold insertRemoteLine
        rw [ht]
        dsimp only
        rw [if_neg hlookupneg]
        rw [List.map_append, map_updateRemote_of_no_key (specRemoteAssoc ts) n o hkeys]
        dsimp only [List.map_cons, List.map_nil]
        rw [if_pos rfl]
        conv_rhs => unfold specRemoteAssoc
        rw [List.map_append]
        dsimp only [List.map_cons, List.map_nil]
        rw [dedupFirst_append_singleton, if_neg hmem, List.map_append]
        dsimp only [List.map_cons, List.map_nil]
        rw [specRemoteRecord_append_fresh ts n u o hno]
        congr 1
        · conv_lhs => unfold specRemoteAssoc
          apply List.map_congr_left
          intro m hm
          have hmn : (n, u, o).1 ≠ m := by
            dsimp only
            intro he
            exact hmem (he ▸ mem_dedupFirst.mp hm)
          rw [specRemoteRecord_append_ne ts (n, u, o) m hmn]

/-- C7: for every remote-listing input the parser produces exactly the
spec-described output: one record per distinct remote name in order of
first appearance, whose url and url kind come from the first line
carrying that name (classified https, ssh, git or unknown by prefix)
and whose push and pull role flags accumulate over all lines carrying
that name without overwriting the url. -/
theorem c7_parse_remotes_refines_spec (remote_output : PyStr) :
    parse_remotes remote_output = specParseRemotes remote_output := by
  unfold parse_remotes specParseRemotes specRemoteTriples
  rw [foldl_insertRemoteLine]
  unfold specRemoteAssoc
  rw [List.map_map]
  rfl

/-- C8: the scenario branch line parses to the expected record, and in
general every parsed branch record has its up-to-date flag true exactly
when both the ahead and behind counts are zero (counts default to zero
when their pattern is absent). -/
theorem c8_branch_line_parsing :
    parse_branch_line ("* main [origin/main] 3 ahead, 1 behind".data) =
      some { name := ("main".data), is_current := true, has_remote := true,
             remote_name := some ("main".data), ahead_count := 3, behind_count := 1,
             is_up_to_date := false } ∧
    (∀ line b, parse_branch_line line = some b →
      b.is_up_to_date = decide (b.ahead_count = 0 ∧ b.behind_count = 0)) := by
  constructor
  · decide
  · intro line b h
    unfold parse_branch_line at h
    split at h
    · exact Option.noConfusion h
    · dsimp only at h
      split at h
      · exact Option.noConfusion h
      · rw [Option.some.injEq] at h
        subst h
        rfl

/-- Witness for C8 at the scenario line. -/
theorem c8_branch_line_parsing_witness :
    ({ name := ("main".data), is_current := true, has_remote := true,
       remote_name := some ("main".data), ahead_count := 3, behind_count := 1,
       is_up_to_date := false } : BranchInfo).is_up_to_date =
      decide ((3 : Nat) = 0 ∧ (1 : Nat) = 0) :=
  c8_branch_line_parsing.2 ("* main [origin/main] 3 ahead, 1 behind".data)
    { name := ("main".data), is_current := true, has_remote := true,
      remote_name := some ("main".data), ahead_count := 3, behind_count := 1,
      is_up_to_date := false }
    c8_branch_line_parsing.1
